import Mathlib

/-!
Verification of the screenplay-parsing core of the-dude-abides.

The repository contains three overlapping Python variants of the same
indentation-driven screenplay parser
(`src/scripts/1_download_and_process_movie_script.py`, `-html.py`,
`-text_v1.py`).  This file gives a shallow embedding of that core:

* text helpers (`_clean_text`, `_get_indentation_level`, Python string
  predicates) are translated character-for-character from the sources
  (identical in all three variants);
* the line classification rules and the accumulator state machine are
  translated from `1_download_and_process_movie_script.py`,
  `_parse_script_lines` (lines 88-157);
* the title-skipping step is translated from `-html.py` lines 111-116 /
  `-text_v1.py` lines 186-189;
* the Sentence Segmenter Adapter is translated from `-text_v1.py`,
  `_convert_dialog_to_sentences` (lines 166-169), applied when a dialogue
  element is flushed as in `-text_v1.py` lines 192-204; the external
  `sentence_splitter` library itself is not part of the repository and is
  kept abstract (a parameter `split`), with a concrete executable instance
  modelled from the spec for evaluation.

Strings are modelled as Lean `String` (a wrapper around `List Char`); all
helper functions mirror the Python (ASCII) semantics of the source.
-/

namespace Imsdb

/-- Python `str.strip()` on the character list of a string: drop whitespace
from both ends. -/
def pyStripList (l : List Char) : List Char :=
  ((l.dropWhile Char.isWhitespace).reverse.dropWhile Char.isWhitespace).reverse

/-- Python `str.strip()`. -/
def pyStrip (s : String) : String :=
  ⟨pyStripList s.data⟩

/-- Collapse every run of consecutive space characters into a single space,
as the source regex substitution of one-or-more spaces by one space does.
The boolean records whether the previous kept character was a space. -/
def collapseSpacesAux : Bool → List Char → List Char
  | _, [] => []
  | prevSp, c :: rest =>
    if c = ' ' then
      if prevSp then collapseSpacesAux true rest
      else ' ' :: collapseSpacesAux true rest
    else c :: collapseSpacesAux false rest

/-- `ScriptParser._clean_text` (identical in all three sources): remove
carriage returns, replace newlines by a space, collapse space runs, strip. -/
def cleanText (s : String) : String :=
  ⟨pyStripList (collapseSpacesAux false
    ((s.data.filter (fun c => c ≠ '\r')).map (fun c => if c = '\n' then ' ' else c)))⟩

/-- Leading-whitespace scan of `ScriptParser._get_indentation_level`: count
leading tab and space characters separately, stopping at the first other
character; return the counts and the remaining characters. -/
def countTabsSpaces : List Char → Nat × Nat × List Char
  | [] => (0, 0, [])
  | c :: rest =>
    if c = '\t' then
      let r := countTabsSpaces rest
      (r.1 + 1, r.2.1, r.2.2)
    else if c = ' ' then
      let r := countTabsSpaces rest
      (r.1, r.2.1 + 1, r.2.2)
    else (0, 0, c :: rest)

/-- `ScriptParser._get_indentation_level` (identical in all three sources):
`indent_level = tabs + spaces // 4`, and the line with the counted leading
whitespace removed. -/
def getIndentationLevel (line : String) : Nat × String :=
  let r := countTabsSpaces line.data
  (r.1 + r.2.1 / 4, ⟨r.2.2⟩)

/-- Python `str.isupper()` (ASCII): at least one cased character and no
lowercase character. -/
def pyIsUpper (s : String) : Bool :=
  s.data.any (fun c => c.isUpper || c.isLower) && s.data.all (fun c => !c.isLower)

/-- Word counting for Python `len(s.split())`: number of maximal runs of
non-whitespace characters.  The boolean records whether the scan is
currently inside a word. -/
def wordCountAux : Bool → List Char → Nat
  | _, [] => 0
  | inWord, c :: rest =>
    if c.isWhitespace then wordCountAux false rest
    else (if inWord then 0 else 1) + wordCountAux true rest

/-- `len(s.split())` in Python. -/
def pyWordCount (s : String) : Nat :=
  wordCountAux false s.data

/-- Python `str.upper()` (ASCII). -/
def pyUpper (s : String) : String :=
  ⟨s.data.map Char.toUpper⟩

/-- Python `s.startswith("(")`. -/
def startsWithParen (s : String) : Bool :=
  match s.data with
  | c :: _ => c = '('
  | [] => false

/-- Python `s.endswith(")")`. -/
def endsWithParen (s : String) : Bool :=
  match s.data.getLast? with
  | some c => c = ')'
  | none => false

/-- Python `s[1:-1]`: the string with its first and last characters removed. -/
def sliceInner (s : String) : String :=
  ⟨(s.data.drop 1).dropLast⟩

/-- Python `" ".join(l)`. -/
def joinSpace : List String → String
  | [] => ""
  | [s] => s
  | s :: rest => s ++ " " ++ joinSpace rest

/-- The `ElementType` enumeration of the sources. -/
inductive ElementType where
  | ACTION
  | CHARACTER
  | LOCATION
  | TRANSITION
  | SCENE_HEADING
  | PARENTHETICAL
  | DIALOGUE
deriving DecidableEq

/-- Content payload of a script element: most elements carry one joined
string; a finalized dialogue element carries the sentence-segmented list
(`content: str | List[str]` in the sources). -/
inductive Content where
  | str : String → Content
  | sentences : List String → Content
deriving DecidableEq

/-- `ScriptElement`: element type, content, and the `character` metadata
entry (`None`/absent modelled as `none`). -/
structure ScriptElement where
  element_type : ElementType
  content : Content
  character : Option String
deriving DecidableEq

/-- `Script`: a title and the ordered elements. -/
structure Script where
  title : String
  elements : List ScriptElement
deriving DecidableEq

/-- The mutable loop-local state of `_parse_script_lines`: the title flag
and value of the `-html.py` variant, and `current_character`,
`current_dialogue`, `in_dialogue` of the main variant. -/
structure ParseState where
  hasReadTitle : Bool
  title : String
  currentCharacter : Option String
  currentDialogue : List String
  inDialogue : Bool
deriving DecidableEq

/-- Initial loop state. -/
def initState : ParseState :=
  ⟨false, "", none, [], false⟩

/-- `ScriptParser._convert_dialog_to_sentences` (`-text_v1.py` lines
166-169), the Sentence Segmenter Adapter: run the external splitter, strip
each sentence, discard empty ones.  The external splitter is the parameter
`split`. -/
def convertDialogToSentences (split : String → List String) (text : String) : List String :=
  ((split text).map pyStrip).filter (fun s => !(s == ""))

/-- The classification guard chain of `_parse_script_lines`
(`1_download_and_process_movie_script.py` lines 102-139), in source order
with first match winning: blank, scene heading, character cue, dialogue
continuation, parenthetical, action. -/
def lineRule (inDialogue : Bool) (indentLevel : Nat) (t : String) : Option ElementType :=
  if t = "" then none
  else if indentLevel ≤ 1 ∧ pyIsUpper t = true ∧ 2 < pyWordCount t then some .SCENE_HEADING
  else if 3 ≤ indentLevel ∧ pyWordCount t ≤ 3 then some .CHARACTER
  else if inDialogue = true ∧ 2 ≤ indentLevel then some .DIALOGUE
  else if startsWithParen t = true ∧ endsWithParen t = true then some .PARENTHETICAL
  else some .ACTION

/-- Python truthiness of `current_character : Optional[str]`. -/
def charTruthy : Option String → Bool
  | none => false
  | some c => !(c == "")

/-- The dialogue flush appearing at the scene-heading, character and action
branches and at end of input (`if current_character and current_dialogue:
yield DIALOGUE(' '.join(current_dialogue), {'character': current_character});
current_dialogue = []`), with the accumulated content passed through the
Sentence Segmenter Adapter at flush time as in `-text_v1.py` lines 192-204. -/
def flushReset (split : String → List String) (st : ParseState) :
    List ScriptElement × ParseState :=
  if charTruthy st.currentCharacter && !st.currentDialogue.isEmpty then
    ([⟨.DIALOGUE,
       .sentences (convertDialogToSentences split (joinSpace st.currentDialogue)),
       st.currentCharacter⟩],
     { st with currentDialogue := [] })
  else ([], st)

/-- Indent level of a raw line. -/
def indentOf (line : String) : Nat :=
  (getIndentationLevel line).1

/-- Normalized content of a raw line: indentation removed, then cleaned. -/
def cleanOf (line : String) : String :=
  cleanText (getIndentationLevel line).2

/-- One iteration of the `_parse_script_lines` loop: skip blank lines, take
the first non-blank line as the title (`-html.py` lines 111-116), otherwise
dispatch on the classification guards of
`1_download_and_process_movie_script.py` lines 102-149, returning the new
state and the elements yielded by this iteration.  `LOCATION`, `TRANSITION`
and the blank case are unreachable from `lineRule` here and return the state
unchanged. -/
def parseStep (split : String → List String) (st : ParseState) (line : String) :
    ParseState × List ScriptElement :=
  if cleanOf line = "" then (st, [])
  else if st.hasReadTitle = false then
    ({ st with hasReadTitle := true, title := cleanOf line }, [])
  else
    match lineRule st.inDialogue (indentOf line) (cleanOf line) with
    | some .SCENE_HEADING =>
      ({ (flushReset split st).2 with currentCharacter := none },
       (flushReset split st).1 ++ [⟨.SCENE_HEADING, .str (cleanOf line), none⟩])
    | some .CHARACTER =>
      ({ st with currentCharacter := some (pyUpper (cleanOf line)),
                 currentDialogue := [], inDialogue := true },
       (flushReset split st).1)
    | some .DIALOGUE =>
      ({ st with currentDialogue := st.currentDialogue ++ [cleanOf line] }, [])
    | some .PARENTHETICAL =>
      (st, [⟨.PARENTHETICAL, .str (sliceInner (cleanOf line)), st.currentCharacter⟩])
    | some .ACTION =>
      ({ (flushReset split st).2 with currentCharacter := none, inDialogue := false },
       (flushReset split st).1 ++ [⟨.ACTION, .str (cleanOf line), none⟩])
    | _ => (st, [])

/-- Run the loop over the lines, accumulating yielded elements. -/
def runLines (split : String → List String) :
    ParseState → List ScriptElement → List String → ParseState × List ScriptElement
  | st, es, [] => (st, es)
  | st, es, line :: rest =>
    runLines split (parseStep split st line).1 (es ++ (parseStep split st line).2) rest

/-- The assembled core: run every line through the loop, flush any remaining
dialogue (`1_download_and_process_movie_script.py` lines 151-157), and
collect the result.  Modelled from the spec: recording the extracted title
into the returned `Script` follows the specification (its Script data model
and assembler), because in both source variants the computed title is stored
into a dead location (`-html.py` assigns a method-local `film_title`,
`-text_v1.py` assigns a fresh `movie_title` attribute on a discarded
`Script`); everything else is from the sources as cited above. -/
def parseScriptLines (split : String → List String) (lines : List String) : Script :=
  ⟨(runLines split initState [] lines).1.title,
   (runLines split initState [] lines).2 ++
     (flushReset split (runLines split initState [] lines).1).1⟩

/-- `parse` on a raw text block: split on newlines as the sources do. -/
def parse (split : String → List String) (raw : String) : Script :=
  parseScriptLines split (raw.split (fun c => c = '\n'))

/-- Sentence boundary test for the executable splitter model: a terminal
punctuation character followed by a space. -/
def sentenceBoundary (c : Char) (rest : List Char) : Bool :=
  (c = '.' || c = '?' || c = '!') &&
    (match rest with
     | ' ' :: _ => true
     | _ => false)

/-- Scan of the executable splitter model: `cur` holds the current sentence
reversed; a boundary closes the current sentence. -/
def splitSentencesAux : List Char → List Char → List String
  | cur, [] => [⟨cur.reverse⟩]
  | cur, c :: rest =>
    if sentenceBoundary c rest then ⟨(c :: cur).reverse⟩ :: splitSentencesAux [] rest
    else splitSentencesAux (c :: cur) rest

/-- Modelled from the spec: the external `sentence_splitter` library (the
Sentence Segmenter Adapter's collaborator, not part of this repository) —
locale-aware sentence-boundary splitting, here realised as splitting after
terminal punctuation followed by a space. -/
def splitSentences (s : String) : List String :=
  splitSentencesAux [] s.data

/-- The specification's classification rule 2: indent at most 1, entirely
upper-case, more than two words. -/
abbrev specRule2 (indentLevel : Nat) (t : String) : Prop :=
  indentLevel ≤ 1 ∧ pyIsUpper t = true ∧ 2 < pyWordCount t

/-- The specification's classification rule 3: indent at least 3, at most
three words. -/
abbrev specRule3 (indentLevel : Nat) (t : String) : Prop :=
  3 ≤ indentLevel ∧ pyWordCount t ≤ 3

/-- The specification's classification rule 4: open dialogue context and
indent at least 2. -/
abbrev specRule4 (inDialogue : Bool) (indentLevel : Nat) : Prop :=
  inDialogue = true ∧ 2 ≤ indentLevel

/-- The specification's classification rule 5: text wrapped in
parentheses. -/
abbrev specRule5 (t : String) : Prop :=
  startsWithParen t = true ∧ endsWithParen t = true

/-- The specification's ordered rule table, first match wins, written from
the spec's words: 1 blank, 2 scene heading, 3 character, 4 dialogue
continuation, 5 parenthetical, 6 action. -/
def classifySpec (inDialogue : Bool) (indentLevel : Nat) (t : String) : Option ElementType :=
  if t = "" then none
  else if specRule2 indentLevel t then some .SCENE_HEADING
  else if specRule3 indentLevel t then some .CHARACTER
  else if specRule4 inDialogue indentLevel then some .DIALOGUE
  else if specRule5 t then some .PARENTHETICAL
  else some .ACTION

/-- `ScriptParser._get_element_type` (`-text_v1.py` lines 132-164): the
variant indent-level classifier.  At indent level 3 without surrounding
parentheses the Python function falls out of the `if` chain and implicitly
returns `None`; the two parenthetical cases return `DIALOGUE` because the
`PARENTHETICAL` returns are commented out in the source; indent levels of 7
or more raise `ValueError`, modelled as `Except.error` carrying the
formatted message. -/
def getElementType (rawText cleanT : String) (indentLevel : Nat) :
    Except String (Option ElementType) :=
  if cleanT = "" then .ok none
  else if indentLevel = 0 then
    (if pyIsUpper cleanT = true then .ok (some .SCENE_HEADING) else .ok (some .ACTION))
  else if indentLevel = 1 then
    (if pyIsUpper cleanT = true then .ok (some .DIALOGUE) else .ok (some .ACTION))
  else if indentLevel = 2 then .ok (some .DIALOGUE)
  else if indentLevel = 3 then
    (if startsWithParen cleanT = true ∧ endsWithParen cleanT = true then .ok (some .DIALOGUE)
     else .ok none)
  else if indentLevel = 4 then .ok (some .DIALOGUE)
  else if indentLevel = 5 then .ok (some .TRANSITION)
  else if indentLevel = 6 then .ok (some .TRANSITION)
  else .error ("Unrecognized indent level: " ++ toString indentLevel ++ " for line: " ++ rawText)

/-- The `Script` shape of `-text_v1.py` as the running script of
`_parse_script_lines` actually uses it: the dataclass has a `title` field,
but line 187 of the source assigns `script.movie_title`, which in Python
creates a fresh attribute and leaves `title` untouched.  The extra field
records that dead store. -/
structure V1Script where
  title : String
  movie_title : Option String
deriving DecidableEq

/-- One iteration of the title handling of `-text_v1.py`
`_parse_script_lines` (lines 186-189): on the first line with non-empty
normalized content, store it — into `movie_title`, not `title` — and set the
flag. -/
def v1TitleStep : V1Script × Bool → String → V1Script × Bool
  | (script, readTitle), line =>
    if cleanOf line ≠ "" ∧ readTitle = false then
      ({ script with movie_title := some (cleanOf line) }, true)
    else (script, readTitle)

/-- The title-handling slice of `-text_v1.py` `_parse_script_lines`: the
script value starts as `Script(title="Movie Title", ...)` (line 174) and the
loop performs `v1TitleStep` on every line. -/
def v1TitleScan (lines : List String) : V1Script :=
  (lines.foldl v1TitleStep (⟨"Movie Title", none⟩, false)).1

/-- The input lines of the specification's concrete scenario A. -/
def scenarioALines : List String :=
  ["\t\t\tTHE GREAT TEST", "INT. ROOM - DAY", "\tA man walks in.",
   "\t\t\tJOHN", "\t\tHello there. How are you?"]

/-- The input lines of the specification's scenario E. -/
def scenarioELines : List String :=
  ["\t\t\tJOHN", "\t\t(quietly)", "\t\tI don\x27t know."]

/-- Claim C1: on the five scenario-A input lines, parsing returns the title
"THE GREAT TEST" and exactly the elements SceneHeading "INT. ROOM - DAY",
Action "A man walks in.", and a Dialogue attributed to "JOHN" whose content
is the two segmented sentences. -/
theorem scenario_a_parse :
    parseScriptLines splitSentences scenarioALines =
      ⟨"THE GREAT TEST",
       [⟨.SCENE_HEADING, .str "INT. ROOM - DAY", none⟩,
        ⟨.ACTION, .str "A man walks in.", none⟩,
        ⟨.DIALOGUE, .sentences ["Hello there.", "How are you?"], some "JOHN"⟩]⟩ := by
  decide

/-- Claim C2: the source's classification guard chain equals the
specification's ordered rule table with first match winning; in particular,
when rule 2 matches the result is SceneHeading regardless of the later
rules, and when rule 4 matches (and rules 2 and 3 do not) the result is
Dialogue even for a parenthesized line that rule 5 would match. -/
theorem classifier_rule_order (inDialogue : Bool) (indentLevel : Nat) (t : String) :
    lineRule inDialogue indentLevel t = classifySpec inDialogue indentLevel t ∧
    (t ≠ "" → specRule2 indentLevel t →
      lineRule inDialogue indentLevel t = some .SCENE_HEADING) ∧
    (t ≠ "" → ¬ specRule2 indentLevel t → ¬ specRule3 indentLevel t →
      specRule4 inDialogue indentLevel →
      lineRule inDialogue indentLevel t = some .DIALOGUE) := by
  refine ⟨rfl, ?_, ?_⟩
  · intro hne h2
    unfold lineRule
    rw [if_neg hne, if_pos h2]
  · intro hne hn2 hn3 h4
    unfold lineRule
    rw [if_neg hne, if_neg hn2, if_neg hn3, if_pos h4]

/-- Witness for C2: a scene-heading line classified by rule 2, and a
parenthesized dialogue-continuation line that rule 4 claims before rule 5 is
ever tested. -/
theorem classifier_rule_order_witness :
    lineRule false 0 "INT. ROOM - DAY" = some ElementType.SCENE_HEADING ∧
    lineRule true 2 "(quietly)" = some ElementType.DIALOGUE :=
  ⟨(classifier_rule_order false 0 "INT. ROOM - DAY").2.1 (by decide) (by decide),
   (classifier_rule_order true 2 "(quietly)").2.2 (by decide) (by decide)
     (by decide) (by decide)⟩

/-- Claim C4: evaluating the `-text_v1.py` title handling on the scenario-A
lines shows the dead store — the first non-empty normalized line
"THE GREAT TEST" is computed and written to the fresh `movie_title`
attribute, while the `title` field of the script keeps the constructor value
"Movie Title", so the extracted title never becomes the Script's title. -/
theorem title_dead_store :
    v1TitleScan scenarioALines = ⟨"Movie Title", some "THE GREAT TEST"⟩ := by
  decide

/-- Counterexample to claim C5: an input containing a line at indent level 9
parses without any failure; the line is silently classified as Action by the
primary parser's total rule table. -/
theorem unrecognized_indent_not_surfaced :
    parseScriptLines splitSentences
        ["T", "\t\t\t\t\t\t\t\t\tHELLO WORLD OUT THERE"] =
      ⟨"T", [⟨.ACTION, .str "HELLO WORLD OUT THERE", none⟩]⟩ := by
  decide

/-- Claim C5 (amended): only the `-text_v1.py` variant classifier surfaces a
structured error for out-of-range indentation, and only for lines with
non-empty normalized text: for indent level 7 or more it returns the error
naming the offending line and the indent level. -/
theorem getElementType_unrecognized_indent (rawText cleanT : String)
    (indentLevel : Nat) (hne : cleanT ≠ "") (h7 : 7 ≤ indentLevel) :
    getElementType rawText cleanT indentLevel =
      .error ("Unrecognized indent level: " ++ toString indentLevel ++
        " for line: " ++ rawText) := by
  unfold getElementType
  rw [if_neg hne, if_neg (by omega : ¬ indentLevel = 0),
    if_neg (by omega : ¬ indentLevel = 1), if_neg (by omega : ¬ indentLevel = 2),
    if_neg (by omega : ¬ indentLevel = 3), if_neg (by omega : ¬ indentLevel = 4),
    if_neg (by omega : ¬ indentLevel = 5), if_neg (by omega : ¬ indentLevel = 6)]

/-- Witness for the amended C5: indent level 9 on a concrete line produces
the structured error naming that line and level. -/
theorem getElementType_unrecognized_indent_witness :
    getElementType "\t\t\t\t\t\t\t\t\tHELLO" "HELLO" 9 =
      .error ("Unrecognized indent level: " ++ toString 9 ++
        " for line: " ++ "\t\t\t\t\t\t\t\t\tHELLO") :=
  getElementType_unrecognized_indent _ _ _ (by decide) (by decide)

/-- Counterexample to claim C6: two consecutive Action lines produce two
separate Action elements, one per line, not a single space-joined one. -/
theorem consecutive_actions_not_merged :
    parseScriptLines splitSentences
        ["T", "First thing happens.", "Then more happens."] =
      ⟨"T", [⟨.ACTION, .str "First thing happens.", none⟩,
             ⟨.ACTION, .str "Then more happens.", none⟩]⟩ := by
  decide

/-- Counterexample to claim C7: on exactly the three scenario-E lines, the
first line becomes the title, the parenthetical is emitted with no character
metadata, and the last line becomes an Action — no element carries the
character "JOHN" and no Dialogue element exists. -/
theorem scenario_e_no_parenthetical :
    parseScriptLines splitSentences scenarioELines =
      ⟨"JOHN", [⟨.PARENTHETICAL, .str "quietly", none⟩,
                ⟨.ACTION, .str "I don\x27t know.", none⟩]⟩ := by
  decide

/-- Counterexample to claim C8: a dialogue-continuation line arriving while
no character is tracked (here after a scene heading cleared the character
but left the dialogue context open) is neither re-classified as Action nor an
error — its text is silently dropped from the output. -/
theorem dialogue_without_character_dropped :
    parseScriptLines splitSentences
        ["T", "\t\t\tJOHN", "INT. BIG ROOM - DAY", "\t\tthis line is lost"] =
      ⟨"T", [⟨.SCENE_HEADING, .str "INT. BIG ROOM - DAY", none⟩]⟩ := by
  decide

/-- Counterexample to claim C9: the line "()" is emitted as a Parenthetical
element whose content is the empty string. -/
theorem empty_parenthetical_content :
    parseScriptLines splitSentences ["T", "()"] =
      ⟨"T", [⟨.PARENTHETICAL, .str "", none⟩]⟩ := by
  decide

/-- A line classified `PARENTHETICAL` by the guard chain has non-empty
normalized text starting with an opening and ending with a closing
parenthesis. -/
lemma lineRule_parenthetical_cond {inDialogue : Bool} {indentLevel : Nat}
    {t : String} (h : lineRule inDialogue indentLevel t = some .PARENTHETICAL) :
    t ≠ "" ∧ startsWithParen t = true ∧ endsWithParen t = true := by
  unfold lineRule at h
  split_ifs at h with h1 h2 h3 h4 h5
  · exact absurd h (by simp)
  · exact absurd h (by simp)
  · exact absurd h (by simp)
  · exact ⟨h1, h5.1, h5.2⟩
  · exact absurd h (by simp)

/-- A list with last element `a` is its `dropLast` followed by `a`. -/
lemma getLast?_decomp {l : List Char} {a : Char} (h : l.getLast? = some a) :
    l = l.dropLast ++ [a] := by
  induction l with
  | nil => simp at h
  | cons x rest ih =>
    cases rest with
    | nil =>
      simp [List.getLast?] at h
      subst h
      rfl
    | cons y t =>
      rw [List.getLast?_cons_cons] at h
      calc x :: y :: t = x :: ((y :: t).dropLast ++ [a]) := by rw [← ih h]
        _ = (x :: y :: t).dropLast ++ [a] := rfl

/-- A character list starting with an opening and ending with a closing
parenthesis is the parentheses wrapped around its inner slice. -/
lemma wrap_decomp {l rest : List Char} (hd : l = '(' :: rest)
    (hL : l.getLast? = some ')') :
    l = '(' :: ((l.drop 1).dropLast ++ [')']) := by
  subst hd
  rw [show (('(' :: rest).drop 1).dropLast = rest.dropLast from rfl]
  cases rest with
  | nil =>
    simp [List.getLast?] at hL
  | cons y t =>
    rw [List.getLast?_cons_cons] at hL
    have ht := getLast?_decomp hL
    calc '(' :: y :: t = '(' :: ((y :: t).dropLast ++ [')']) := by rw [← ht]
      _ = '(' :: ((y :: t).dropLast ++ [')']) := rfl

/-- A string that starts with an opening and ends with a closing parenthesis
is the parentheses wrapped around its inner slice. -/
lemma paren_decomp {s : String} (h1 : startsWithParen s = true)
    (h2 : endsWithParen s = true) :
    s.data = '(' :: (sliceInner s).data ++ [')'] := by
  have hstart : ∃ rest, s.data = '(' :: rest := by
    rcases hd : s.data with _ | ⟨c, rest⟩
    · simp [startsWithParen, hd] at h1
    · have hc : c = '(' := by
        simp [startsWithParen, hd] at h1
        exact h1
      subst hc
      exact ⟨rest, rfl⟩
  have hlast : s.data.getLast? = some ')' := by
    rcases hL : s.data.getLast? with _ | d
    · simp [endsWithParen, hL] at h2
    · have hdp : d = ')' := by
        simp [endsWithParen, hL] at h2
        exact h2
      subst hdp
      rfl
  obtain ⟨rest, hd⟩ := hstart
  exact wrap_decomp hd hlast

/-- Claim C10: a line emitted as a Parenthetical has content equal to its
normalized text with the first and last characters removed, and those
removed characters are exactly the enclosing parentheses. -/
theorem parenthetical_strips_enclosing_parens (split : String → List String)
    (st : ParseState) (line : String) (hread : st.hasReadTitle = true)
    (hrule : lineRule st.inDialogue (indentOf line) (cleanOf line) =
      some .PARENTHETICAL) :
    (parseStep split st line).2 =
      [⟨.PARENTHETICAL, .str (sliceInner (cleanOf line)), st.currentCharacter⟩] ∧
    (cleanOf line).data = '(' :: (sliceInner (cleanOf line)).data ++ [')'] := by
  obtain ⟨hne, hs, he⟩ := lineRule_parenthetical_cond hrule
  constructor
  · unfold parseStep
    rw [if_neg hne, if_neg (by simp [hread]), hrule]
  · exact paren_decomp hs he

/-- Witness for C10: the line "(quietly)" with character "JOHN" tracked. -/
theorem parenthetical_strips_enclosing_parens_witness :
    (parseStep splitSentences ⟨true, "T", some "JOHN", [], false⟩ "(quietly)").2 =
      [⟨.PARENTHETICAL, .str (sliceInner (cleanOf "(quietly)")), some "JOHN"⟩] ∧
    (cleanOf "(quietly)").data = '(' :: (sliceInner (cleanOf "(quietly)")).data ++ [')'] :=
  parenthetical_strips_enclosing_parens splitSentences
    ⟨true, "T", some "JOHN", [], false⟩ "(quietly)" rfl (by decide)

/-- Claim C6 (amended): every line classified as Action yields its own
Action element carrying exactly that line's normalized content (after any
pending dialogue flush); consecutive Action lines are therefore emitted as
separate elements, not merged. -/
theorem action_line_yields_own_element (split : String → List String)
    (st : ParseState) (line : String) (hread : st.hasReadTitle = true)
    (hrule : lineRule st.inDialogue (indentOf line) (cleanOf line) = some .ACTION) :
    (parseStep split st line).2 =
      (flushReset split st).1 ++ [⟨.ACTION, .str (cleanOf line), none⟩] := by
  have hne : cleanOf line ≠ "" := by
    intro h
    rw [h] at hrule
    simp [lineRule] at hrule
  unfold parseStep
  rw [if_neg hne, if_neg (by simp [hread]), hrule]

/-- Witness for the amended C6: a concrete Action line yields exactly one
Action element of its own. -/
theorem action_line_yields_own_element_witness :
    (parseStep splitSentences ⟨true, "T", none, [], false⟩ "Something happens here.").2 =
      (flushReset splitSentences ⟨true, "T", none, [], false⟩).1 ++
        [⟨.ACTION, .str (cleanOf "Something happens here."), none⟩] :=
  action_line_yields_own_element splitSentences ⟨true, "T", none, [], false⟩
    "Something happens here." rfl (by decide)

/-- Claim C7 (amended): with a title line prepended, the scenario-E lines
produce a single Dialogue element attributed to "JOHN" whose accumulated
content contains the parenthetical text, because the dialogue-continuation
rule claims the "(quietly)" line before the parenthetical rule is tested;
and whenever a line is classified Parenthetical, the emitted element carries
the currently tracked character and the parser state — including the open
dialogue context — is left unchanged. -/
theorem parenthetical_mid_dialogue_amended :
    (∀ split : String → List String,
      parseScriptLines split ("THE GREAT TEST" :: scenarioELines) =
        ⟨"THE GREAT TEST",
         [⟨.DIALOGUE,
           .sentences (convertDialogToSentences split "(quietly) I don\x27t know."),
           some "JOHN"⟩]⟩) ∧
    (∀ (split : String → List String) (st : ParseState) (line : String),
      st.hasReadTitle = true →
      lineRule st.inDialogue (indentOf line) (cleanOf line) = some .PARENTHETICAL →
      parseStep split st line =
        (st, [⟨.PARENTHETICAL, .str (sliceInner (cleanOf line)), st.currentCharacter⟩])) := by
  constructor
  · intro split
    rfl
  · intro split st line hread hrule
    have hne : cleanOf line ≠ "" := (lineRule_parenthetical_cond hrule).1
    unfold parseStep
    rw [if_neg hne, if_neg (by simp [hread]), hrule]

/-- Witness for the amended C7: a concrete Parenthetical line emitted with
the tracked character "MAUDE" and an unchanged state. -/
theorem parenthetical_mid_dialogue_amended_witness :
    parseStep splitSentences ⟨true, "X", some "MAUDE", [], false⟩ "\t(pause)" =
      (⟨true, "X", some "MAUDE", [], false⟩,
       [⟨.PARENTHETICAL, .str (sliceInner (cleanOf "\t(pause)")), some "MAUDE"⟩]) :=
  parenthetical_mid_dialogue_amended.2 splitSentences
    ⟨true, "X", some "MAUDE", [], false⟩ "\t(pause)" rfl (by decide)

/-- Claim C8 (amended): a line classified as Dialogue continuation while no
character is tracked is appended to the open dialogue buffer — it is not
re-classified as Action and no error is raised; since every flush requires a
tracked character, such buffered text can be dropped from the output. -/
theorem dialogue_without_character_buffered (split : String → List String)
    (st : ParseState) (line : String) (hread : st.hasReadTitle = true)
    (_hchar : st.currentCharacter = none)
    (hrule : lineRule st.inDialogue (indentOf line) (cleanOf line) = some .DIALOGUE) :
    parseStep split st line =
      ({ st with currentDialogue := st.currentDialogue ++ [cleanOf line] }, []) := by
  have hne : cleanOf line ≠ "" := by
    intro h
    rw [h] at hrule
    simp [lineRule] at hrule
  unfold parseStep
  rw [if_neg hne, if_neg (by simp [hread]), hrule]

/-- Witness for the amended C8: a concrete dialogue-continuation line with
no tracked character is buffered and emits nothing. -/
theorem dialogue_without_character_buffered_witness :
    parseStep splitSentences ⟨true, "T", none, [], true⟩ "\t\tlost words here" =
      (⟨true, "T", none, [cleanOf "\t\tlost words here"], true⟩, []) :=
  dialogue_without_character_buffered splitSentences ⟨true, "T", none, [], true⟩
    "\t\tlost words here" rfl rfl (by decide)

/-- Every element emitted by a dialogue flush is the Dialogue element built
from a truthy tracked character and a non-empty buffer, its content the
segmented join of the buffer. -/
lemma mem_flushReset_emit {split : String → List String} {st : ParseState}
    {e : ScriptElement} (he : e ∈ (flushReset split st).1) :
    ∃ c, st.currentCharacter = some c ∧ c ≠ "" ∧ st.currentDialogue ≠ [] ∧
      e = ⟨.DIALOGUE,
        .sentences (convertDialogToSentences split (joinSpace st.currentDialogue)),
        some c⟩ := by
  unfold flushReset at he
  by_cases h : (charTruthy st.currentCharacter && !st.currentDialogue.isEmpty) = true
  · rw [if_pos h] at he
    obtain ⟨h1, h2⟩ : charTruthy st.currentCharacter = true ∧
        (!st.currentDialogue.isEmpty) = true := by simpa using h
    cases hcc : st.currentCharacter with
    | none =>
      rw [hcc] at h1
      simp [charTruthy] at h1
    | some c =>
      rw [hcc] at h1
      have hcne : c ≠ "" := by
        simpa [charTruthy] using h1
      have hdne : st.currentDialogue ≠ [] := by
        intro hh
        rw [hh] at h2
        simp at h2
      have he2 := List.mem_singleton.mp he
      refine ⟨c, rfl, hcne, hdne, ?_⟩
      rw [he2, hcc]
  · rw [if_neg h] at he
    simp at he

/-- Every element emitted by one loop iteration is either a flushed Dialogue
element or the single new element of the branch taken. -/
lemma mem_parseStep_emit {split : String → List String} {st : ParseState}
    {line : String} {e : ScriptElement}
    (he : e ∈ (parseStep split st line).2) :
    e ∈ (flushReset split st).1 ∨
    (e = ⟨.SCENE_HEADING, .str (cleanOf line), none⟩ ∧ cleanOf line ≠ "") ∨
    (e = ⟨.ACTION, .str (cleanOf line), none⟩ ∧ cleanOf line ≠ "") ∨
    e = ⟨.PARENTHETICAL, .str (sliceInner (cleanOf line)), st.currentCharacter⟩ := by
  unfold parseStep at he
  by_cases hempty : cleanOf line = ""
  · rw [if_pos hempty] at he
    simp at he
  · rw [if_neg hempty] at he
    by_cases htitle : st.hasReadTitle = false
    · rw [if_pos htitle] at he
      simp at he
    · rw [if_neg htitle] at he
      rcases hrule : lineRule st.inDialogue (indentOf line) (cleanOf line) with _ | ty
      · rw [hrule] at he
        simp at he
      · rw [hrule] at he
        cases ty with
        | SCENE_HEADING =>
          have he2 : e ∈ (flushReset split st).1 ++
              [(⟨.SCENE_HEADING, .str (cleanOf line), none⟩ : ScriptElement)] := he
          rcases List.mem_append.mp he2 with h | h
          · exact Or.inl h
          · exact Or.inr (Or.inl ⟨List.mem_singleton.mp h, hempty⟩)
        | CHARACTER =>
          exact Or.inl he
        | DIALOGUE =>
          have he2 : e ∈ ([] : List ScriptElement) := he
          simp at he2
        | PARENTHETICAL =>
          have he2 : e ∈
              [(⟨.PARENTHETICAL, .str (sliceInner (cleanOf line)),
                st.currentCharacter⟩ : ScriptElement)] := he
          exact Or.inr (Or.inr (Or.inr (List.mem_singleton.mp he2)))
        | ACTION =>
          have he2 : e ∈ (flushReset split st).1 ++
              [(⟨.ACTION, .str (cleanOf line), none⟩ : ScriptElement)] := he
          rcases List.mem_append.mp he2 with h | h
          · exact Or.inl h
          · exact Or.inr (Or.inr (Or.inl ⟨List.mem_singleton.mp h, hempty⟩))
        | LOCATION =>
          have he2 : e ∈ ([] : List ScriptElement) := he
          simp at he2
        | TRANSITION =>
          have he2 : e ∈ ([] : List ScriptElement) := he
          simp at he2

/-- A dialogue flush either clears the buffer or leaves it unchanged. -/
lemma flushReset_dialogue_state (split : String → List String) (st : ParseState) :
    (flushReset split st).2.currentDialogue = [] ∨
    (flushReset split st).2.currentDialogue = st.currentDialogue := by
  unfold flushReset
  by_cases h : (charTruthy st.currentCharacter && !st.currentDialogue.isEmpty) = true
  · rw [if_pos h]
    exact Or.inl rfl
  · rw [if_neg h]
    exact Or.inr rfl

/-- One loop iteration clears the dialogue buffer, keeps it, or appends the
line's non-empty normalized content to it. -/
lemma parseStep_dialogue_state (split : String → List String) (st : ParseState)
    (line : String) :
    (parseStep split st line).1.currentDialogue = [] ∨
    (parseStep split st line).1.currentDialogue = st.currentDialogue ∨
    ((parseStep split st line).1.currentDialogue =
      st.currentDialogue ++ [cleanOf line] ∧ cleanOf line ≠ "") := by
  unfold parseStep
  by_cases hempty : cleanOf line = ""
  · rw [if_pos hempty]
    exact Or.inr (Or.inl rfl)
  · rw [if_neg hempty]
    by_cases htitle : st.hasReadTitle = false
    · rw [if_pos htitle]
      exact Or.inr (Or.inl rfl)
    · rw [if_neg htitle]
      rcases hrule : lineRule st.inDialogue (indentOf line) (cleanOf line) with _ | ty
      · exact Or.inr (Or.inl rfl)
      · cases ty with
        | SCENE_HEADING =>
          rcases flushReset_dialogue_state split st with h | h
          · exact Or.inl h
          · exact Or.inr (Or.inl h)
        | CHARACTER =>
          exact Or.inl rfl
        | DIALOGUE =>
          exact Or.inr (Or.inr ⟨rfl, hempty⟩)
        | PARENTHETICAL =>
          exact Or.inr (Or.inl rfl)
        | ACTION =>
          rcases flushReset_dialogue_state split st with h | h
          · exact Or.inl h
          · exact Or.inr (Or.inl h)
        | LOCATION =>
          exact Or.inr (Or.inl rfl)
        | TRANSITION =>
          exact Or.inr (Or.inl rfl)

/-- Fold invariant for the line loop: a state invariant preserved by every
step, together with a property of every emitted element, holds across
`runLines`. -/
lemma runLines_invariant (split : String → List String)
    (P : ScriptElement → Prop) (J : ParseState → Prop)
    (hstep : ∀ st line, J st → J (parseStep split st line).1)
    (hemit : ∀ st line, J st → ∀ e ∈ (parseStep split st line).2, P e) :
    ∀ (lines : List String) (st : ParseState) (es : List ScriptElement),
      J st → (∀ e ∈ es, P e) →
      J (runLines split st es lines).1 ∧
        ∀ e ∈ (runLines split st es lines).2, P e := by
  intro lines
  induction lines with
  | nil =>
    intro st es hJ hes
    exact ⟨hJ, hes⟩
  | cons line rest ih =>
    intro st es hJ hes
    refine ih (parseStep split st line).1 (es ++ (parseStep split st line).2)
      (hstep st line hJ) ?_
    intro e he
    rcases List.mem_append.mp he with h | h
    · exact hes e h
    · exact hemit st line hJ e h

/-- Every element of the parsed script satisfies `P`, given a preserved
state invariant `J` under which every emission (including the final flush)
satisfies `P`. -/
lemma parseScriptLines_forall (split : String → List String)
    (P : ScriptElement → Prop) (J : ParseState → Prop)
    (hinit : J initState)
    (hstep : ∀ st line, J st → J (parseStep split st line).1)
    (hemit : ∀ st line, J st → ∀ e ∈ (parseStep split st line).2, P e)
    (hflush : ∀ st, J st → ∀ e ∈ (flushReset split st).1, P e)
    (lines : List String) :
    ∀ e ∈ (parseScriptLines split lines).elements, P e := by
  intro e he
  have h := runLines_invariant split P J hstep hemit lines initState []
    hinit (by intro x hx; exact absurd hx (List.not_mem_nil x))
  have he2 : e ∈ (runLines split initState [] lines).2 ++
      (flushReset split (runLines split initState [] lines).1).1 := he
  rcases List.mem_append.mp he2 with h2 | h2
  · exact h.2 e h2
  · exact hflush _ h.1 e h2

/-- Claim C3: every Dialogue element's content is the sentence sequence that
the Sentence Segmenter Adapter returns on some accumulated string, and every
non-Dialogue element's content is a single un-segmented string. -/
theorem dialogue_content_segmented (split : String → List String)
    (lines : List String) :
    ∀ e ∈ (parseScriptLines split lines).elements,
      (e.element_type = .DIALOGUE →
        ∃ s, e.content = .sentences (convertDialogToSentences split s)) ∧
      (e.element_type ≠ .DIALOGUE → ∃ s, e.content = .str s) := by
  refine parseScriptLines_forall split _ (fun _ => True) trivial
    (fun _ _ _ => trivial) ?_ ?_ lines
  · intro st line _ e he
    rcases mem_parseStep_emit he with h | h | h | h
    · rcases mem_flushReset_emit h with ⟨c, _, _, _, rfl⟩
      exact ⟨fun _ => ⟨joinSpace st.currentDialogue, rfl⟩,
        fun hne => absurd rfl hne⟩
    · rcases h with ⟨rfl, _⟩
      exact ⟨fun h2 => ElementType.noConfusion h2, fun _ => ⟨cleanOf line, rfl⟩⟩
    · rcases h with ⟨rfl, _⟩
      exact ⟨fun h2 => ElementType.noConfusion h2, fun _ => ⟨cleanOf line, rfl⟩⟩
    · rcases h with rfl
      exact ⟨fun h2 => ElementType.noConfusion h2,
        fun _ => ⟨sliceInner (cleanOf line), rfl⟩⟩
  · intro st _ e he
    rcases mem_flushReset_emit he with ⟨c, _, _, _, rfl⟩
    exact ⟨fun _ => ⟨joinSpace st.currentDialogue, rfl⟩,
      fun hne => absurd rfl hne⟩

/-- Witness for C3: the scenario-A dialogue element's content is the
segmenter's output on its accumulated string. -/
theorem dialogue_content_segmented_witness :
    ∃ s, Content.sentences ["Hello there.", "How are you?"] =
      Content.sentences (convertDialogToSentences splitSentences s) :=
  (dialogue_content_segmented splitSentences scenarioALines
    ⟨.DIALOGUE, .sentences ["Hello there.", "How are you?"], some "JOHN"⟩
    (by decide)).1 rfl

/-- A string containing at least one non-whitespace character. -/
def hasNonWs (s : String) : Prop :=
  ∃ c ∈ s.data, c.isWhitespace = false

/-- A non-empty `dropWhile` result contains an element falsifying the
predicate. -/
lemma dropWhile_exists_not {p : Char → Bool} :
    ∀ {l : List Char}, l.dropWhile p ≠ [] → ∃ c ∈ l.dropWhile p, p c = false := by
  intro l
  induction l with
  | nil =>
    intro h
    simp [List.dropWhile] at h
  | cons a t ih =>
    intro h
    by_cases hp : p a = true
    · rw [List.dropWhile_cons, if_pos hp] at h ⊢
      exact ih h
    · rw [List.dropWhile_cons, if_neg hp]
      exact ⟨a, List.mem_cons_self a t, by simpa using hp⟩

/-- An element falsifying the predicate survives `dropWhile`. -/
lemma mem_dropWhile_of_mem {p : Char → Bool} :
    ∀ {l : List Char} {c : Char}, c ∈ l → p c = false → c ∈ l.dropWhile p := by
  intro l
  induction l with
  | nil =>
    intro c h _
    exact absurd h (List.not_mem_nil c)
  | cons a t ih =>
    intro c h hc
    by_cases hp : p a = true
    · rw [List.dropWhile_cons, if_pos hp]
      rcases List.mem_cons.mp h with rfl | h2
      · rw [hc] at hp
        cases hp
      · exact ih h2 hc
    · rw [List.dropWhile_cons, if_neg hp]
      exact h

/-- A non-empty stripped list contains a non-whitespace character. -/
lemma pyStripList_exists_nonws {l : List Char} (h : pyStripList l ≠ []) :
    ∃ c ∈ pyStripList l, c.isWhitespace = false := by
  unfold pyStripList at h ⊢
  have h2 : (l.dropWhile Char.isWhitespace).reverse.dropWhile Char.isWhitespace ≠ [] := by
    intro hh
    apply h
    rw [hh]
    rfl
  obtain ⟨c, hc, hw⟩ := dropWhile_exists_not h2
  exact ⟨c, List.mem_reverse.mpr hc, hw⟩

/-- A non-whitespace character of a list survives stripping. -/
lemma mem_pyStripList {l : List Char} {c : Char} (h : c ∈ l)
    (hw : c.isWhitespace = false) : c ∈ pyStripList l := by
  unfold pyStripList
  exact List.mem_reverse.mpr
    (mem_dropWhile_of_mem (List.mem_reverse.mpr (mem_dropWhile_of_mem h hw)) hw)

/-- A string is non-empty exactly when its character list is. -/
lemma ne_empty_iff_data {s : String} : s ≠ "" ↔ s.data ≠ [] := by
  cases s with
  | mk l =>
    constructor
    · intro h hh
      have hl : l = [] := hh
      subst hl
      exact h rfl
    · intro h hh
      have hl : l = [] := congrArg String.data hh
      exact h hl

/-- A non-empty cleaned string contains a non-whitespace character (the
cleaning ends with a strip). -/
lemma cleanText_hasNonWs {s : String} (h : cleanText s ≠ "") :
    hasNonWs (cleanText s) := by
  have hd : pyStripList (collapseSpacesAux false
      ((s.data.filter (fun c => c ≠ '\r')).map
        (fun c => if c = '\n' then ' ' else c))) ≠ [] :=
    ne_empty_iff_data.mp h
  obtain ⟨c, hc, hw⟩ := pyStripList_exists_nonws hd
  exact ⟨c, hc, hw⟩

/-- String concatenation concatenates the character lists. -/
lemma data_append (a b : String) : (a ++ b).data = a.data ++ b.data := by
  cases a
  cases b
  rfl

/-- A space-join of non-blank strings is non-blank. -/
lemma joinSpace_hasNonWs : ∀ (l : List String), l ≠ [] →
    (∀ s ∈ l, hasNonWs s) → hasNonWs (joinSpace l) := by
  intro l hne hall
  cases l with
  | nil => exact absurd rfl hne
  | cons s rest =>
    obtain ⟨c, hc, hw⟩ := hall s (List.mem_cons_self s rest)
    cases rest with
    | nil => exact ⟨c, hc, hw⟩
    | cons y t =>
      refine ⟨c, ?_, hw⟩
      have hdata : (joinSpace (s :: y :: t)).data =
          (s.data ++ (" " : String).data) ++ (joinSpace (y :: t)).data := by
        rw [show joinSpace (s :: y :: t) = s ++ " " ++ joinSpace (y :: t) from rfl,
          data_append, data_append]
      rw [hdata, List.append_assoc]
      exact List.mem_append_left _ hc

/-- The segments produced by the splitter scan concatenate back to the
input preceded by the pending reversed prefix. -/
lemma splitSentencesAux_join :
    ∀ (l cur : List Char),
      (List.map String.data (splitSentencesAux cur l)).flatten = cur.reverse ++ l := by
  intro l
  induction l with
  | nil =>
    intro cur
    simp [splitSentencesAux]
  | cons c rest ih =>
    intro cur
    have heq : splitSentencesAux cur (c :: rest) =
        if sentenceBoundary c rest = true then
          ⟨(c :: cur).reverse⟩ :: splitSentencesAux [] rest
        else splitSentencesAux (c :: cur) rest := rfl
    by_cases hb : sentenceBoundary c rest = true
    · rw [heq, if_pos hb]
      show (⟨(c :: cur).reverse⟩ : String).data ++
          (List.map String.data (splitSentencesAux [] rest)).flatten =
        cur.reverse ++ c :: rest
      rw [ih []]
      show (c :: cur).reverse ++ rest = cur.reverse ++ c :: rest
      simp
    · rw [heq, if_neg hb]
      rw [ih (c :: cur)]
      simp

/-- Every string returned by the Sentence Segmenter Adapter is non-empty. -/
lemma convert_members_ne_empty {split : String → List String} {x : String} :
    ∀ s ∈ convertDialogToSentences split x, s ≠ "" := by
  intro s hs
  unfold convertDialogToSentences at hs
  have h := List.mem_filter.mp hs
  simpa using h.2

/-- On a string with a non-whitespace character, the adapter over the
modelled splitter returns at least one sentence. -/
lemma convert_splitSentences_ne_nil {x : String} (h : hasNonWs x) :
    convertDialogToSentences splitSentences x ≠ [] := by
  obtain ⟨c, hc, hw⟩ := h
  have hcj : c ∈ (List.map String.data (splitSentencesAux [] x.data)).flatten := by
    rw [splitSentencesAux_join x.data []]
    exact hc
  obtain ⟨d, hd, hcd⟩ := List.mem_flatten.mp hcj
  obtain ⟨seg, hseg, rfl⟩ := List.mem_map.mp hd
  have hstrip : pyStrip seg ≠ "" := by
    intro hh
    have hmem : c ∈ (pyStrip seg).data := mem_pyStripList hcd hw
    rw [hh] at hmem
    exact absurd hmem (List.not_mem_nil c)
  have hmem2 : pyStrip seg ∈ convertDialogToSentences splitSentences x := by
    unfold convertDialogToSentences
    refine List.mem_filter.mpr ⟨List.mem_map.mpr ⟨seg, hseg, rfl⟩, ?_⟩
    simpa using hstrip
  exact List.ne_nil_of_mem hmem2

/-- Non-emptiness of an element's content: a single string is non-empty, a
sentence list is non-empty with non-empty members. -/
def contentNonempty : Content → Prop
  | .str s => s ≠ ""
  | .sentences l => l ≠ [] ∧ ∀ s ∈ l, s ≠ ""

/-- Claim C9 (amended): every emitted element that is not a Parenthetical
has non-empty content, every Dialogue element has non-empty character
metadata, and a line with empty normalized text produces no element and
leaves the state unchanged; a Parenthetical's content is the line's inner
text, which may be empty. -/
theorem element_content_invariants :
    (∀ (lines : List String), ∀ e ∈ (parseScriptLines splitSentences lines).elements,
      (e.element_type ≠ .PARENTHETICAL → contentNonempty e.content) ∧
      (e.element_type = .DIALOGUE → ∃ c, e.character = some c ∧ c ≠ "")) ∧
    (∀ (split : String → List String) (st : ParseState) (line : String),
      cleanOf line = "" → parseStep split st line = (st, [])) := by
  constructor
  · intro lines
    refine parseScriptLines_forall splitSentences _
      (fun st => ∀ s ∈ st.currentDialogue, hasNonWs s) ?_ ?_ ?_ ?_ lines
    · intro s hs
      exact absurd hs (List.not_mem_nil s)
    · intro st line hJ
      rcases parseStep_dialogue_state splitSentences st line with h | h | ⟨h, hne⟩
      · rw [h]
        intro s hs
        exact absurd hs (List.not_mem_nil s)
      · rw [h]
        exact hJ
      · rw [h]
        intro s hs
        rcases List.mem_append.mp hs with h2 | h2
        · exact hJ s h2
        · rw [List.mem_singleton.mp h2]
          exact cleanText_hasNonWs hne
    · intro st line hJ e he
      rcases mem_parseStep_emit he with h | h | h | h
      · rcases mem_flushReset_emit h with ⟨c, hcc, hcne, hdne, rfl⟩
        exact ⟨fun _ => ⟨convert_splitSentences_ne_nil
            (joinSpace_hasNonWs _ hdne hJ), convert_members_ne_empty⟩,
          fun _ => ⟨c, rfl, hcne⟩⟩
      · rcases h with ⟨rfl, hne⟩
        exact ⟨fun _ => hne, fun h2 => ElementType.noConfusion h2⟩
      · rcases h with ⟨rfl, hne⟩
        exact ⟨fun _ => hne, fun h2 => ElementType.noConfusion h2⟩
      · rcases h with rfl
        exact ⟨fun h2 => absurd rfl h2, fun h2 => ElementType.noConfusion h2⟩
    · intro st hJ e he
      rcases mem_flushReset_emit he with ⟨c, hcc, hcne, hdne, rfl⟩
      exact ⟨fun _ => ⟨convert_splitSentences_ne_nil
          (joinSpace_hasNonWs _ hdne hJ), convert_members_ne_empty⟩,
        fun _ => ⟨c, rfl, hcne⟩⟩
  · intro split st line h
    unfold parseStep
    rw [if_pos h]

/-- Witness for the amended C9: the scenario-A dialogue element has
non-empty segmented content and a non-empty character. -/
theorem element_content_invariants_witness :
    contentNonempty (Content.sentences ["Hello there.", "How are you?"]) ∧
    (∃ c, (some "JOHN" : Option String) = some c ∧ c ≠ "") := by
  have h := element_content_invariants.1 scenarioALines
    ⟨.DIALOGUE, .sentences ["Hello there.", "How are you?"], some "JOHN"⟩
    (by decide)
  exact ⟨h.1 (by decide), h.2 rfl⟩

end Imsdb
